import Mathlib

/-!
Verification of the YouTube clip downloader (`Downloader.py`) against its
natural-language specification.  The pure helper functions are embedded
directly; the effectful pipeline `download_and_clip` is embedded as a
deterministic function over an environment that records the outcome of
every external-process invocation and every poll of the cancellation
predicate, together with an explicit file-system state (existence of the
intermediate full download and of the clip artifact).
-/

namespace YTD

/-! ### sanitize_filename (Downloader.py lines 56-81) -/

/-- The characters `<>:"/\|?*` that `sanitize_filename` replaces by `_`. -/
def illegalChars : List Char := ['<', '>', ':', '"', '/', '\\', '|', '?', '*']

/-- Python `string.ascii_letters + string.digits + ' -_'` membership. -/
def isSafeChar (c : Char) : Bool :=
  decide (('a' ≤ c ∧ c ≤ 'z') ∨ ('A' ≤ c ∧ c ≤ 'Z') ∨ ('0' ≤ c ∧ c ≤ '9') ∨
    c = ' ' ∨ c = '-' ∨ c = '_')

/-- One pass of `title.replace(char, '_')`. -/
def replaceOne (ch : Char) (l : List Char) : List Char :=
  l.map (fun c => if c = ch then '_' else c)

/-- The `for char in illegal_chars: title = title.replace(char, '_')` loop. -/
def replaceIllegal (l : List Char) : List Char :=
  illegalChars.foldl (fun acc ch => replaceOne ch acc) l

/-- Characters stripped by `safe_title.strip(' _')`. -/
def isStripChar (c : Char) : Bool := c == ' ' || c == '_'

/-- Python `str.strip(' _')`: remove leading and trailing spaces/underscores. -/
def pyStripUnders (l : List Char) : List Char :=
  ((l.dropWhile isStripChar).reverse.dropWhile isStripChar).reverse

/-- The final `if not safe_title: safe_title = "youtube_video"` fallback. -/
def orPlaceholder : List Char → List Char
  | [] => "youtube_video".data
  | c :: cs => c :: cs

/-- `sanitize_filename`, on the character list of the title: replace illegal
characters with underscores, keep only safe characters, strip leading and
trailing spaces/underscores, truncate to 100 characters, and fall back to
`"youtube_video"` when the result is empty. -/
def sanitizeList (l : List Char) : List Char :=
  orPlaceholder ((pyStripUnders ((replaceIllegal l).filter isSafeChar)).take 100)

/-- `sanitize_filename` on strings. -/
def sanitize_filename (s : String) : String :=
  String.mk (sanitizeList s.data)

theorem orPlaceholder_eq_ite (x : List Char) :
    orPlaceholder x = if x = [] then "youtube_video".data else x := by
  cases x with
  | nil => rfl
  | cons c cs => simp [orPlaceholder]

theorem sanitize_filename_data (s : String) :
    (sanitize_filename s).data = sanitizeList s.data := by
  cases s with
  | mk l => rfl

theorem string_eq_of_data {s t : String} (h : s.data = t.data) : s = t := by
  cases s with
  | mk a =>
    cases t with
    | mk b => exact congrArg String.mk h

/-! ### Basic list lemmas used for the sanitization properties -/

theorem map_eq_self_of_fix {l : List Char} {f : Char → Char}
    (h : ∀ c ∈ l, f c = c) : l.map f = l := by
  induction l with
  | nil => rfl
  | cons a t ih =>
    simp only [List.map_cons]
    rw [h a (by simp), ih (fun c hc => h c (by simp [hc]))]

theorem mem_replaceOne {c : Char} {ch : Char} {l : List Char}
    (h : c ∈ replaceOne ch l) : c = '_' ∨ c ∈ l := by
  rcases List.mem_map.mp h with ⟨a, ha, hfa⟩
  by_cases hac : a = ch
  · subst hac
    simp at hfa
    exact Or.inl hfa.symm
  · right
    rw [if_neg hac] at hfa
    exact hfa ▸ ha

theorem head?_dropWhile_no (p : Char → Bool) :
    ∀ (l : List Char) (c : Char), (l.dropWhile p).head? = some c → p c = false := by
  intro l
  induction l with
  | nil => intro c h; simp [List.dropWhile] at h
  | cons a t ih =>
    intro c h
    rw [List.dropWhile_cons] at h
    by_cases hpa : p a = true
    · rw [if_pos hpa] at h
      exact ih c h
    · rw [if_neg hpa] at h
      simp at h
      subst h
      simpa using hpa

theorem dropWhile_eq_self_of_head (p : Char → Bool) (l : List Char)
    (h : ∀ c, l.head? = some c → p c = false) : l.dropWhile p = l := by
  cases l with
  | nil => rfl
  | cons a t =>
    rw [List.dropWhile_cons, if_neg]
    simp [h a rfl]

theorem getLast?_cons_of_ne_nil {a : Char} {t : List Char} (h : t ≠ []) :
    (a :: t).getLast? = t.getLast? := by
  cases t with
  | nil => exact absurd rfl h
  | cons b u => simp [List.getLast?]

theorem getLast?_dropWhile (p : Char → Bool) :
    ∀ (l : List Char), l.dropWhile p ≠ [] → (l.dropWhile p).getLast? = l.getLast? := by
  intro l
  induction l with
  | nil => intro h; simp [List.dropWhile] at h
  | cons a t ih =>
    intro h
    rw [List.dropWhile_cons] at h ⊢
    by_cases hpa : p a = true
    · rw [if_pos hpa] at h ⊢
      have ht : t ≠ [] := by
        intro he
        rw [he] at h
        simp [List.dropWhile] at h
      rw [ih h, getLast?_cons_of_ne_nil ht]
    · rw [if_neg hpa]

theorem mem_pyStripUnders {c : Char} {l : List Char}
    (h : c ∈ pyStripUnders l) : c ∈ l := by
  unfold pyStripUnders at h
  rw [List.mem_reverse] at h
  have h1 := (List.dropWhile_sublist (l := (l.dropWhile isStripChar).reverse)
    (p := isStripChar)).mem h
  rw [List.mem_reverse] at h1
  exact (List.dropWhile_sublist (l := l) (p := isStripChar)).mem h1

theorem pyStripUnders_head? {l : List Char} {c : Char}
    (h : (pyStripUnders l).head? = some c) : isStripChar c = false := by
  unfold pyStripUnders at h
  rw [List.head?_reverse] at h
  by_cases hnil : (l.dropWhile isStripChar).reverse.dropWhile isStripChar = []
  · rw [hnil] at h
    simp at h
  · rw [getLast?_dropWhile _ _ hnil, List.getLast?_reverse] at h
    exact head?_dropWhile_no _ _ _ h

theorem pyStripUnders_getLast? {l : List Char} {c : Char}
    (h : (pyStripUnders l).getLast? = some c) : isStripChar c = false := by
  unfold pyStripUnders at h
  rw [List.getLast?_reverse] at h
  exact head?_dropWhile_no _ _ _ h

theorem pyStripUnders_length_le (l : List Char) :
    (pyStripUnders l).length ≤ l.length := by
  unfold pyStripUnders
  calc ((l.dropWhile isStripChar).reverse.dropWhile isStripChar).reverse.length
      = ((l.dropWhile isStripChar).reverse.dropWhile isStripChar).length := by
        rw [List.length_reverse]
    _ ≤ (l.dropWhile isStripChar).reverse.length :=
        (List.dropWhile_sublist _).length_le
    _ = (l.dropWhile isStripChar).length := by rw [List.length_reverse]
    _ ≤ l.length := (List.dropWhile_sublist _).length_le

theorem pyStripUnders_eq_self {l : List Char}
    (hh : ∀ c, l.head? = some c → isStripChar c = false)
    (ht : ∀ c, l.getLast? = some c → isStripChar c = false) :
    pyStripUnders l = l := by
  unfold pyStripUnders
  rw [dropWhile_eq_self_of_head _ _ hh]
  rw [dropWhile_eq_self_of_head _ _ (fun c hc => ht c (by rwa [List.head?_reverse] at hc))]
  exact List.reverse_reverse l

/-! ### Properties of the sanitizer output -/

theorem placeholder_safe : ∀ c ∈ "youtube_video".data, isSafeChar c = true := by
  decide

theorem mem_sanitizeList_safe {c : Char} {l : List Char}
    (h : c ∈ sanitizeList l) : isSafeChar c = true := by
  simp only [sanitizeList, orPlaceholder_eq_ite] at h
  split at h
  · exact placeholder_safe c h
  · have h1 := (List.take_sublist 100 _).mem h
    have h2 := mem_pyStripUnders h1
    exact (List.mem_filter.mp h2).2

theorem safeChar_not_illegal {c : Char} (h : isSafeChar c = true) :
    c ∉ illegalChars := by
  intro hmem
  simp only [illegalChars, List.mem_cons, List.not_mem_nil, or_false] at hmem
  rcases hmem with rfl | rfl | rfl | rfl | rfl | rfl | rfl | rfl | rfl <;>
    exact absurd h (by decide)

theorem sanitizeList_length_le (l : List Char) :
    (sanitizeList l).length ≤ 100 := by
  simp only [sanitizeList, orPlaceholder_eq_ite]
  split
  · decide
  · rw [List.length_take]
    exact min_le_left _ _

theorem sanitizeList_ne_nil (l : List Char) : sanitizeList l ≠ [] := by
  simp only [sanitizeList, orPlaceholder_eq_ite]
  split
  · decide
  · assumption

theorem sanitizeList_head? {l : List Char} {c : Char}
    (h : (sanitizeList l).head? = some c) : isStripChar c = false := by
  simp only [sanitizeList, orPlaceholder_eq_ite] at h
  split at h
  · simp at h
    subst h
    decide
  · rw [List.head?_take, if_neg (by decide)] at h
    exact pyStripUnders_head? h

theorem replaceOne_eq_self {ch : Char} {l : List Char} (h : ∀ c ∈ l, c ≠ ch) :
    replaceOne ch l = l :=
  map_eq_self_of_fix (fun c hc => if_neg (h c hc))

theorem replaceIllegal_eq_self {l : List Char}
    (h : ∀ c ∈ l, isSafeChar c = true) : replaceIllegal l = l := by
  have key : ∀ (chs : List Char), (∀ ch ∈ chs, ch ∈ illegalChars) →
      chs.foldl (fun acc ch => replaceOne ch acc) l = l := by
    intro chs
    induction chs with
    | nil => intro _; rfl
    | cons ch rest ih =>
      intro hchs
      simp only [List.foldl_cons]
      rw [replaceOne_eq_self
        (fun c hc he => safeChar_not_illegal (h c hc) (he ▸ hchs ch (by simp)))]
      exact ih (fun x hx => hchs x (by simp [hx]))
  exact key illegalChars (fun ch hc => hc)

theorem replaceOne_length (ch : Char) (l : List Char) :
    (replaceOne ch l).length = l.length := by
  simp [replaceOne]

theorem replaceIllegal_length (l : List Char) :
    (replaceIllegal l).length = l.length := by
  have key : ∀ (chs : List Char) (m : List Char),
      (chs.foldl (fun acc ch => replaceOne ch acc) m).length = m.length := by
    intro chs
    induction chs with
    | nil => intro m; rfl
    | cons ch rest ih =>
      intro m
      simp only [List.foldl_cons]
      rw [ih, replaceOne_length]
  exact key illegalChars l

/-- A list of safe characters that is nonempty, at most 100 long, and neither
starts nor ends with a strippable character is a fixed point of the
sanitizer. -/
theorem sanitizeList_fixed {l : List Char}
    (hsafe : ∀ c ∈ l, isSafeChar c = true) (hne : l ≠ [])
    (hlen : l.length ≤ 100)
    (hh : ∀ c, l.head? = some c → isStripChar c = false)
    (ht : ∀ c, l.getLast? = some c → isStripChar c = false) :
    sanitizeList l = l := by
  simp only [sanitizeList, orPlaceholder_eq_ite]
  rw [replaceIllegal_eq_self hsafe, List.filter_eq_self.mpr hsafe,
    pyStripUnders_eq_self hh ht, List.take_of_length_le hlen, if_neg hne]

theorem sanitizeList_getLast?_of_le {l : List Char} {c : Char}
    (hlen : l.length ≤ 100)
    (h : (sanitizeList l).getLast? = some c) : isStripChar c = false := by
  simp only [sanitizeList, orPlaceholder_eq_ite] at h
  have hstrip : (pyStripUnders ((replaceIllegal l).filter isSafeChar)).length ≤ 100 := by
    calc (pyStripUnders ((replaceIllegal l).filter isSafeChar)).length
        ≤ ((replaceIllegal l).filter isSafeChar).length := pyStripUnders_length_le _
      _ ≤ (replaceIllegal l).length := List.length_filter_le _ _
      _ = l.length := replaceIllegal_length l
      _ ≤ 100 := hlen
  rw [List.take_of_length_le hstrip] at h
  split at h
  · simp at h
    subst h
    decide
  · exact pyStripUnders_getLast? h

theorem isStripChar_false_iff {c : Char} :
    isStripChar c = false ↔ c ≠ ' ' ∧ c ≠ '_' := by
  simp [isStripChar, not_or]

theorem sanitize_filename_length (s : String) :
    (sanitize_filename s).length = (sanitizeList s.data).length := by
  cases s with
  | mk l => rfl

/-- C6: for every raw title, `sanitize_filename`'s output contains only
letters, digits, space, hyphen and underscore (in particular none of
`<>:"/\\|?*`), has length at most 100, and when the sanitized result would be
empty it is replaced by the fixed placeholder `"youtube_video"`. -/
theorem claim_sanitize_charset (title : String) :
    (∀ c ∈ (sanitize_filename title).data, isSafeChar c = true) ∧
    (∀ c ∈ (sanitize_filename title).data, c ∉ illegalChars) ∧
    (sanitize_filename title).length ≤ 100 ∧
    ((pyStripUnders ((replaceIllegal title.data).filter isSafeChar)).take 100 = [] →
      sanitize_filename title = "youtube_video") := by
  refine ⟨?_, ?_, ?_, ?_⟩
  · intro c hc
    rw [sanitize_filename_data] at hc
    exact mem_sanitizeList_safe hc
  · intro c hc
    rw [sanitize_filename_data] at hc
    exact safeChar_not_illegal (mem_sanitizeList_safe hc)
  · rw [sanitize_filename_length]
    exact sanitizeList_length_le _
  · intro h
    apply string_eq_of_data
    rw [sanitize_filename_data]
    simp only [sanitizeList, orPlaceholder_eq_ite]
    rw [if_pos h]

/-- Witness for C6: a title whose safe characters strip away entirely falls
back to the placeholder. -/
theorem claim_sanitize_charset_witness :
    sanitize_filename "< >" = "youtube_video" :=
  (claim_sanitize_charset "< >").2.2.2 (by decide)

/-- A 101-character title: its sanitized form is truncated to 100 characters
ending in an underscore, which a second sanitization pass strips again. -/
def longTitle : String := String.mk (List.replicate 99 'a' ++ ['_', 'b'])

/-- C7 counterexample: sanitization is not idempotent; `longTitle` (99 `a`s,
then `_b`) sanitizes to 99 `a`s followed by `_`, and sanitizing that again
yields just the 99 `a`s. -/
theorem sanitize_not_idempotent :
    sanitize_filename (sanitize_filename longTitle) ≠ sanitize_filename longTitle := by
  decide

theorem string_length_data (s : String) : s.data.length = s.length := by
  cases s with
  | mk l => rfl

theorem sanitize_sanitize_of_getLast (x : String)
    (hlast : ∀ c, (sanitizeList x.data).getLast? = some c → isStripChar c = false) :
    sanitize_filename (sanitize_filename x) = sanitize_filename x := by
  apply string_eq_of_data
  rw [sanitize_filename_data (sanitize_filename x), sanitize_filename_data x]
  exact sanitizeList_fixed
    (fun c hc => mem_sanitizeList_safe hc)
    (sanitizeList_ne_nil _) (sanitizeList_length_le _)
    (fun c hc => sanitizeList_head? hc) hlast

/-- C7 amended: `sanitize_filename` is idempotent on every input whose
sanitized output does not end in a space or underscore, and in particular on
every input of length at most 100.  (An input longer than 100 characters may
truncate to an output ending in a strippable character, breaking
idempotence.) -/
theorem claim_sanitize_idempotent_cond (x : String) :
    ((∀ c, (sanitize_filename x).data.getLast? = some c → c ≠ ' ' ∧ c ≠ '_') →
      sanitize_filename (sanitize_filename x) = sanitize_filename x) ∧
    (x.length ≤ 100 →
      sanitize_filename (sanitize_filename x) = sanitize_filename x) := by
  constructor
  · intro hlast
    apply sanitize_sanitize_of_getLast
    intro c hc
    refine isStripChar_false_iff.mpr (hlast c ?_)
    rw [sanitize_filename_data]
    exact hc
  · intro hlen
    apply sanitize_sanitize_of_getLast
    intro c hc
    refine sanitizeList_getLast?_of_le ?_ hc
    rw [string_length_data]
    exact hlen

/-- Witness for C7's amended theorem at a concrete short title. -/
theorem claim_sanitize_idempotent_cond_witness :
    ("abc" : String).length ≤ 100 ∧
      sanitize_filename (sanitize_filename "abc") = sanitize_filename "abc" :=
  ⟨by decide, (claim_sanitize_idempotent_cond "abc").2 (by decide)⟩

/-! ### Time utilities (Downloader.py lines 35-54) -/

/-- ASCII whitespace stripped by Python `int()` around its argument. -/
def isPySpace (c : Char) : Bool :=
  c == ' ' || c == '\t' || c == '\n' || c == '\r' || c == '\x0B' || c == '\x0C'

/-- Strip surrounding whitespace, as `int(str)` does before parsing. -/
def pyStripWs (l : List Char) : List Char :=
  ((l.dropWhile isPySpace).reverse.dropWhile isPySpace).reverse

/-- Continuation of a digit run accepted by Python `int()`: further digits,
with single underscores allowed only between digits. -/
def digitsTail : List Char → Bool
  | [] => true
  | ['_'] => false
  | '_' :: c :: rest => c.isDigit && digitsTail rest
  | c :: rest => c.isDigit && digitsTail rest

/-- A digit run accepted by Python `int()` after the optional sign. -/
def digitsOk : List Char → Bool
  | [] => false
  | c :: rest => c.isDigit && digitsTail rest

/-- Numeric value of a digit run, ignoring underscore separators. -/
def digitsVal (l : List Char) : Nat :=
  (l.filter (fun c => c != '_')).foldl (fun n c => n * 10 + (c.toNat - '0'.toNat)) 0

/-- Python `int(s)` on a string: optional surrounding whitespace, an optional
sign, then a digit run; raises `ValueError` (here: `none`) otherwise. -/
def pyInt (s : String) : Option Int :=
  match pyStripWs s.data with
  | '+' :: rest => if digitsOk rest then some (digitsVal rest : Int) else none
  | '-' :: rest => if digitsOk rest then some (-(digitsVal rest : Int)) else none
  | rest => if digitsOk rest then some (digitsVal rest : Int) else none

/-- `int(h) if h else 0`: the empty string is falsy and defaults to 0. -/
def pyIntOr0 (s : String) : Option Int :=
  if s = "" then some 0 else pyInt s

/-- `is_valid_time` (lines 35-43): each component (defaulting to 0 when
absent) must parse as an integer with hours in 0..23 and minutes/seconds in
0..59; a `ValueError` yields `False`. -/
def is_valid_time (h m s : String) : Bool :=
  match pyIntOr0 h, pyIntOr0 m, pyIntOr0 s with
  | some hv, some mv, some sv =>
      decide (0 ≤ hv ∧ hv ≤ 23 ∧ 0 ≤ mv ∧ mv ≤ 59 ∧ 0 ≤ sv ∧ sv ≤ 59)
  | _, _, _ => false

/-- Zero-padding to width two of a nonnegative value, as Python `{:02d}`. -/
def pad2Nat (n : Nat) : String :=
  if n < 10 then "0" ++ toString n else toString n

/-- Python `{:02d}` on an integer: the sign counts toward the width, so any
negative value already fills the two columns and gets no zero padding. -/
def intPad2 (n : Int) : String :=
  if n < 0 then "-" ++ toString n.natAbs else pad2Nat n.toNat

/-- `format_time` (lines 45-50); `none` models the `ValueError` it raises
when a nonempty component does not parse as an integer. -/
def format_time (h m s : String) : Option String := do
  let hv ← pyIntOr0 h
  let mv ← pyIntOr0 m
  let sv ← pyIntOr0 s
  pure (intPad2 hv ++ ":" ++ intPad2 mv ++ ":" ++ intPad2 sv)

theorem intPad2_of_nonneg {n : Int} (h : 0 ≤ n) : intPad2 n = pad2Nat n.toNat := by
  rw [intPad2, if_neg (by omega)]

/-- C8: when every component parses as an integer (an absent component
defaulting to 0) with hours in [0,23] and minutes/seconds in [0,59],
`is_valid_time` accepts and `format_time` produces the zero-padded
`HH:MM:SS` rendering of the parsed values; a component that parses out of
range, or does not parse at all, makes `is_valid_time` reject. -/
theorem claim_time_validation (h m s : String) :
    (∀ hv mv sv : Int, pyIntOr0 h = some hv → pyIntOr0 m = some mv →
      pyIntOr0 s = some sv →
      ((0 ≤ hv ∧ hv ≤ 23 ∧ 0 ≤ mv ∧ mv ≤ 59 ∧ 0 ≤ sv ∧ sv ≤ 59) →
        is_valid_time h m s = true ∧
        format_time h m s =
          some (pad2Nat hv.toNat ++ ":" ++ pad2Nat mv.toNat ++ ":" ++ pad2Nat sv.toNat)) ∧
      (¬(0 ≤ hv ∧ hv ≤ 23 ∧ 0 ≤ mv ∧ mv ≤ 59 ∧ 0 ≤ sv ∧ sv ≤ 59) →
        is_valid_time h m s = false)) ∧
    ((pyIntOr0 h = none ∨ pyIntOr0 m = none ∨ pyIntOr0 s = none) →
      is_valid_time h m s = false) := by
  constructor
  · intro hv mv sv hh hm hs
    constructor
    · intro hr
      constructor
      · simp only [is_valid_time, hh, hm, hs]
        exact decide_eq_true hr
      · simp only [format_time, hh, hm, hs, Option.some_bind, Option.bind_some,
          bind, pure, Option.some.injEq]
        rw [intPad2_of_nonneg hr.1, intPad2_of_nonneg hr.2.2.1,
          intPad2_of_nonneg hr.2.2.2.2.1]
    · intro hr
      simp only [is_valid_time, hh, hm, hs]
      exact decide_eq_false hr
  · intro hnone
    cases eh : pyIntOr0 h with
    | none => simp [is_valid_time, eh]
    | some hv =>
      cases em : pyIntOr0 m with
      | none => simp [is_valid_time, eh, em]
      | some mv =>
        cases es : pyIntOr0 s with
        | none => simp [is_valid_time, eh, em, es]
        | some sv =>
          exfalso
          rcases hnone with hn | hn | hn
          · rw [eh] at hn; exact Option.noConfusion hn
          · rw [em] at hn; exact Option.noConfusion hn
          · rw [es] at hn; exact Option.noConfusion hn

/-- Witness for C8 at components "7", "30" and an absent seconds field. -/
theorem claim_time_validation_witness :
    is_valid_time "7" "30" "" = true ∧
      format_time "7" "30" "" =
        some (pad2Nat (7 : Int).toNat ++ ":" ++ pad2Nat (30 : Int).toNat ++ ":" ++
          pad2Nat (0 : Int).toNat) :=
  ((claim_time_validation "7" "30" "").1 7 30 0 (by decide) (by decide)
    (by decide)).1 (by decide)

/-! ### is_valid_url (Downloader.py lines 31-33)

The pattern is `^(https?://)?(www\.)?(youtube\.com|youtu\.be)/.+$`.  All of
its alternatives and optional groups are first-character (or, for the two
hosts, sixth-character) disjoint from what may follow, so greedy prefix
matching without backtracking decides the same language; that is how the
matcher is embedded below. -/

/-- Drop `p` as a literal character prefix of `l`, if present. -/
def dropPref : List Char → List Char → Option (List Char)
  | [], l => some l
  | _ :: _, [] => none
  | p :: ps, c :: cs => if p = c then dropPref ps cs else none

/-- Drop a literal prefix when present, keep the input otherwise — an
optional group of the pattern. -/
def tryDrop (p : String) (l : List Char) : List Char :=
  match dropPref p.data l with
  | some r => r
  | none => l

/-- The optional `(https?://)?` group. -/
def dropScheme (l : List Char) : List Char :=
  match dropPref "https://".data l with
  | some r => r
  | none => tryDrop "http://" l

/-- Python regex `.+$` with default flags: one or more non-newline
characters, optionally followed by exactly one final newline (`$` also
matches just before a trailing newline, and `.` never matches a newline). -/
def pathBody (rest : List Char) : Bool :=
  match rest.getLast? with
  | none => false
  | some c =>
      if c = '\n' then
        decide (rest.dropLast ≠ []) && rest.dropLast.all (fun x => x != '\n')
      else
        decide (rest ≠ []) && rest.all (fun x => x != '\n')

/-- The `(youtube\.com|youtu\.be)/.+$` tail of the pattern. -/
def hostAndPath (l : List Char) : Bool :=
  match dropPref "youtube.com/".data l with
  | some r => pathBody r
  | none =>
      match dropPref "youtu.be/".data l with
      | some r => pathBody r
      | none => false

/-- `is_valid_url` (lines 31-33): the truth value of `re.match` of the
pattern against the whole input. -/
def is_valid_url (url : String) : Bool :=
  hostAndPath (tryDrop "www." (dropScheme url.data))

/-- The acceptance set asserted by the claim (modelled from its words):
optional scheme, optional `www.`, one of the two hosts, a slash, and any
non-empty path. -/
def urlShapeClaimed (url : String) : Prop :=
  ∃ scheme www host path : String,
    scheme ∈ ["", "http://", "https://"] ∧ www ∈ ["", "www."] ∧
    host ∈ ["youtube.com", "youtu.be"] ∧ path ≠ "" ∧
    url = scheme ++ www ++ host ++ "/" ++ path

/-- The acceptance set the code actually decides: as claimed, except that
the path must be a non-empty run of non-newline characters optionally
followed by exactly one final newline. -/
def urlShapeActual (url : String) : Prop :=
  ∃ scheme www host core nl : String,
    scheme ∈ ["", "http://", "https://"] ∧ www ∈ ["", "www."] ∧
    host ∈ ["youtube.com", "youtu.be"] ∧
    core ≠ "" ∧ (∀ c ∈ core.data, c ≠ '\n') ∧ nl ∈ ["", "\n"] ∧
    url = scheme ++ www ++ host ++ "/" ++ core ++ nl

theorem dropPref_eq_some (p : List Char) : ∀ (l r : List Char),
    dropPref p l = some r ↔ l = p ++ r := by
  induction p with
  | nil =>
    intro l r
    simp [dropPref]
  | cons a ps ih =>
    intro l r
    cases l with
    | nil => simp [dropPref]
    | cons c cs =>
      simp only [dropPref, List.cons_append, List.cons.injEq]
      by_cases hac : a = c
      · subst hac
        rw [if_pos rfl, ih]
        simp
      · rw [if_neg hac]
        simp [Ne.symm hac]

/-! Stage evaluation lemmas: each optional group of the pattern either
consumes exactly its literal or, on a first-character mismatch, consumes
nothing. -/

theorem dropScheme_https (r : List Char) :
    dropScheme ("https://".data ++ r) = r := rfl

theorem dropScheme_http (r : List Char) :
    dropScheme ("http://".data ++ r) = r := rfl

theorem dropScheme_www (r : List Char) :
    dropScheme ("www.".data ++ r) = "www.".data ++ r := rfl

theorem dropScheme_ytb (r : List Char) :
    dropScheme ("youtube.com".data ++ r) = "youtube.com".data ++ r := rfl

theorem dropScheme_ytu (r : List Char) :
    dropScheme ("youtu.be".data ++ r) = "youtu.be".data ++ r := rfl

theorem tryDrop_www (r : List Char) :
    tryDrop "www." ("www.".data ++ r) = r := rfl

theorem tryDrop_www_ytb (r : List Char) :
    tryDrop "www." ("youtube.com".data ++ r) = "youtube.com".data ++ r := rfl

theorem tryDrop_www_ytu (r : List Char) :
    tryDrop "www." ("youtu.be".data ++ r) = "youtu.be".data ++ r := rfl

theorem hostAndPath_ytb (r : List Char) :
    hostAndPath ("youtube.com".data ++ ('/' :: r)) = pathBody r := rfl

theorem hostAndPath_ytu (r : List Char) :
    hostAndPath ("youtu.be".data ++ ('/' :: r)) = pathBody r := rfl

/-! Inversion lemmas: what an accepted input must look like. -/

theorem dropScheme_inv (l : List Char) :
    ∃ p : String, p ∈ ["", "http://", "https://"] ∧ l = p.data ++ dropScheme l := by
  unfold dropScheme
  cases h1 : dropPref "https://".data l with
  | some r => exact ⟨"https://", by simp, (dropPref_eq_some _ _ _).mp h1⟩
  | none =>
    unfold tryDrop
    cases h2 : dropPref "http://".data l with
    | some r => exact ⟨"http://", by simp, (dropPref_eq_some _ _ _).mp h2⟩
    | none =>
      refine ⟨"", by simp, ?_⟩
      rw [show ("" : String).data = [] from rfl]
      simp

theorem tryDrop_inv (p : String) (l : List Char) :
    ∃ w : String, w ∈ ["", p] ∧ l = w.data ++ tryDrop p l := by
  unfold tryDrop
  cases h1 : dropPref p.data l with
  | some r => exact ⟨p, by simp, (dropPref_eq_some _ _ _).mp h1⟩
  | none =>
    refine ⟨"", by simp, ?_⟩
    rw [show ("" : String).data = [] from rfl]
    simp

theorem hostAndPath_inv {l : List Char} (h : hostAndPath l = true) :
    ∃ host : String, host ∈ ["youtube.com", "youtu.be"] ∧
      ∃ r, l = host.data ++ ('/' :: r) ∧ pathBody r = true := by
  unfold hostAndPath at h
  cases h1 : dropPref "youtube.com/".data l with
  | some r =>
    rw [h1] at h
    refine ⟨"youtube.com", by simp, r, ?_, h⟩
    rw [(dropPref_eq_some _ _ _).mp h1]
    rfl
  | none =>
    rw [h1] at h
    cases h2 : dropPref "youtu.be/".data l with
    | some r =>
      rw [h2] at h
      refine ⟨"youtu.be", by simp, r, ?_, h⟩
      rw [(dropPref_eq_some _ _ _).mp h2]
      rfl
    | none =>
      rw [h2] at h
      exact absurd h (by simp)

theorem pathBody_iff (r : List Char) :
    pathBody r = true ↔ ∃ core nl : List Char, core ≠ [] ∧ (∀ c ∈ core, c ≠ '\n') ∧
      (nl = [] ∨ nl = ['\n']) ∧ r = core ++ nl := by
  constructor
  · intro h
    unfold pathBody at h
    cases hl : r.getLast? with
    | none => rw [hl] at h; exact absurd h (by simp)
    | some c =>
      rw [hl] at h
      dsimp only [] at h
      by_cases hc : c = '\n'
      · subst hc
        rw [if_pos rfl] at h
        rw [Bool.and_eq_true, decide_eq_true_iff, List.all_eq_true] at h
        obtain ⟨ys, hys⟩ := List.getLast?_eq_some_iff.mp hl
        have hdl : r.dropLast = ys := by rw [hys, List.dropLast_concat]
        refine ⟨r.dropLast, ['\n'], h.1, ?_, Or.inr rfl, ?_⟩
        · intro x hx
          simpa using h.2 x hx
        · rw [hdl, ← hys]
      · rw [if_neg hc] at h
        rw [Bool.and_eq_true, decide_eq_true_iff, List.all_eq_true] at h
        refine ⟨r, [], h.1, ?_, Or.inl rfl, by simp⟩
        intro x hx
        simpa using h.2 x hx
  · rintro ⟨core, nl, hne, hall, hnl, rfl⟩
    unfold pathBody
    rcases hnl with rfl | rfl
    · rw [List.append_nil]
      cases hl : core.getLast? with
      | none => exact absurd (List.getLast?_eq_none_iff.mp hl) hne
      | some c =>
        dsimp only []
        rw [if_neg (hall c (List.mem_of_getLast?_eq_some hl))]
        rw [Bool.and_eq_true, decide_eq_true_iff, List.all_eq_true]
        exact ⟨hne, fun x hx => by simpa using hall x hx⟩
    · rw [List.getLast?_concat]
      dsimp only []
      rw [if_pos rfl, List.dropLast_concat]
      rw [Bool.and_eq_true, decide_eq_true_iff, List.all_eq_true]
      exact ⟨hne, fun x hx => by simpa using hall x hx⟩

/-! Composed stage lemmas over the allowed literal alternatives. -/

theorem dropScheme_after {sch : String} (hs : sch ∈ ["", "http://", "https://"])
    {w : String} (hw : w ∈ ["", "www."])
    {host : String} (hh : host ∈ ["youtube.com", "youtu.be"]) (r : List Char) :
    dropScheme (sch.data ++ (w.data ++ (host.data ++ r))) =
      w.data ++ (host.data ++ r) := by
  simp only [List.mem_cons, List.mem_singleton, List.not_mem_nil, or_false] at hs hw hh
  rcases hs with rfl | rfl | rfl
  · rw [show ("" : String).data = [] from rfl, List.nil_append]
    rcases hw with rfl | rfl
    · rw [show ("" : String).data = [] from rfl, List.nil_append]
      rcases hh with rfl | rfl
      · exact dropScheme_ytb r
      · exact dropScheme_ytu r
    · exact dropScheme_www _
  · exact dropScheme_http _
  · exact dropScheme_https _

theorem tryDrop_after {w : String} (hw : w ∈ ["", "www."])
    {host : String} (hh : host ∈ ["youtube.com", "youtu.be"]) (r : List Char) :
    tryDrop "www." (w.data ++ (host.data ++ r)) = host.data ++ r := by
  simp only [List.mem_cons, List.mem_singleton, List.not_mem_nil, or_false] at hw hh
  rcases hw with rfl | rfl
  · rw [show ("" : String).data = [] from rfl, List.nil_append]
    rcases hh with rfl | rfl
    · exact tryDrop_www_ytb r
    · exact tryDrop_www_ytu r
  · exact tryDrop_www _

theorem hostAndPath_after {host : String} (hh : host ∈ ["youtube.com", "youtu.be"])
    (r : List Char) : hostAndPath (host.data ++ ('/' :: r)) = pathBody r := by
  simp only [List.mem_cons, List.mem_singleton, List.not_mem_nil, or_false] at hh
  rcases hh with rfl | rfl
  · exact hostAndPath_ytb r
  · exact hostAndPath_ytu r

theorem data_mk (l : List Char) : (String.mk l).data = l := rfl

/-- C9 counterexample: `"youtube.com/a\nb"` has the claimed shape — empty
scheme, empty `www.`, host `youtube.com`, and the non-empty path `"a\nb"` —
yet the code rejects it, because the regex's `.` never matches the embedded
newline. -/
theorem url_claim_counterexample :
    urlShapeClaimed "youtube.com/a\nb" ∧ is_valid_url "youtube.com/a\nb" = false := by
  constructor
  · exact ⟨"", "", "youtube.com", "a\nb", by decide, by decide, by decide,
      by decide, by decide⟩
  · decide

/-- C9 amended: `is_valid_url` accepts exactly the strings built from an
optional scheme, an optional `www.`, one of the two recognized hosts, a
slash, and a path that is a non-empty run of non-newline characters
optionally followed by exactly one final newline; in particular it accepts
the two sample YouTube URLs and rejects the Vimeo one. -/
theorem claim_url_validation (url : String) :
    (is_valid_url url = true ↔ urlShapeActual url) ∧
    is_valid_url "https://www.youtube.com/watch?v=abc123" = true ∧
    is_valid_url "youtu.be/abc123" = true ∧
    is_valid_url "https://vimeo.com/123" = false := by
  refine ⟨⟨?_, ?_⟩, by decide, by decide, by decide⟩
  · intro h
    unfold is_valid_url at h
    obtain ⟨host, hhostmem, r, hhost, hpb⟩ := hostAndPath_inv h
    obtain ⟨core, nl, hcne, hcall, hnlor, hr⟩ := (pathBody_iff r).mp hpb
    obtain ⟨w, hwmem, hw⟩ := tryDrop_inv "www." (dropScheme url.data)
    obtain ⟨sch, hschmem, hsch⟩ := dropScheme_inv url.data
    refine ⟨sch, w, host, String.mk core, String.mk nl, hschmem, hwmem, hhostmem,
      ?_, ?_, ?_, ?_⟩
    · intro he
      exact hcne (congrArg String.data he)
    · exact hcall
    · rcases hnlor with rfl | rfl
      · exact by decide
      · exact by decide
    · apply string_eq_of_data
      rw [hsch, hw, hhost, hr]
      simp only [String.data_append, show ("/" : String).data = ['/'] from rfl,
        data_mk, List.append_assoc, List.singleton_append, List.cons_append,
        List.nil_append, List.append_nil]
  · rintro ⟨sch, w, host, core, nl, hschmem, hwmem, hhostmem, hcne, hcall,
      hnlmem, rfl⟩
    unfold is_valid_url
    have hdata : (sch ++ w ++ host ++ "/" ++ core ++ nl).data
        = sch.data ++ (w.data ++ (host.data ++ ('/' :: (core.data ++ nl.data)))) := by
      simp only [String.data_append, show ("/" : String).data = ['/'] from rfl,
        List.append_assoc, List.singleton_append, List.cons_append,
        List.nil_append, List.append_nil]
    rw [hdata, dropScheme_after hschmem hwmem hhostmem,
      tryDrop_after hwmem hhostmem, hostAndPath_after hhostmem]
    apply (pathBody_iff _).mpr
    refine ⟨core.data, nl.data, ?_, hcall, ?_, rfl⟩
    · intro he
      exact hcne (string_eq_of_data he)
    · simp only [List.mem_cons, List.mem_singleton, List.not_mem_nil, or_false] at hnlmem
      rcases hnlmem with rfl | rfl
      · exact Or.inl rfl
      · exact Or.inr rfl

/-! ### run_command (Downloader.py lines 97-105) -/

/-- Behaviour of one external command invocation: each step of the `try`
block may raise, carrying the exception text `str(e)`. -/
structure CmdWorld where
  spawn : Except String Unit
  callback : Except String Unit
  comm : Except String (Int × String × String)

/-- The body of `run_command`'s `try` block: spawn the process, hand it to
the caller's callback, wait via `communicate`, and pair the exit code with
the concatenation of stdout and stderr. -/
def run_command_body (w : CmdWorld) : Except String (Int × String) := do
  w.spawn
  w.callback
  let r ← w.comm
  pure (r.1, r.2.1 ++ r.2.2)

/-- `run_command`: the `except Exception` handler turns any exception raised
in the body into the returned pair `(1, str(e))`. -/
def run_command (w : CmdWorld) : Int × String :=
  match run_command_body w with
  | .ok v => v
  | .error m => (1, m)

/-! ### download_and_clip (Downloader.py lines 107-290)

The pipeline is embedded as a deterministic function over an environment
recording what the cancellation predicate returns at each successive poll
and what each external invocation would do (exit status, and whether its
expected output file exists on disk afterwards).  The state tracks the
number of polls, the list of external processes started, the existence of
the two files the run owns, and the artifact path reported on success. -/

/-- External process kinds one run can start. -/
inductive Proc
  | titleFetch
  | dlNamed (k : Nat)
  | dlGeneric
  | transcode
deriving DecidableEq

/-- Environment of one run. `titleCode`/`titleOut` describe the
`yt-dlp --get-title` call, `now` the timestamp used for the fallback name,
`cancel n` the value of the n-th poll of the cancellation predicate, and
the `run*` fields each downloader/transcoder invocation (exit code, output
file present afterwards). -/
structure Env where
  titleCode : Int
  titleOut : String
  now : String
  cancel : Nat → Bool
  runNamed : Nat → Int × Bool
  runGeneric : Int × Bool
  runTranscode : Int × Bool

/-- Run state: polls consumed, processes started, file existence, and the
artifact path reported on success. -/
structure St where
  polls : Nat
  procs : List Proc
  fullExists : Bool
  clipExists : Bool
  artifact : Option String
deriving DecidableEq

/-- How a run ends, tagged with the phase that ended it. -/
inductive Outcome
  | success
  | failedDownload
  | failedTrim
  | cancelledPre
  | cancelledPost
  | cancelledTrim
deriving DecidableEq

/-- `get_video_title` (lines 83-95): on exit status 0 the stripped stdout is
sanitized, otherwise (including on an exception) the result is `None`. -/
def get_video_title (env : Env) : Option String :=
  if env.titleCode = 0 then
    some (sanitize_filename (String.mk (pyStripWs env.titleOut.data)))
  else none

/-- The `video_title` used for filenames (lines 115-117): a failed title
fetch falls back to `yt_video_<timestamp>`.  (`sanitize_filename` never
returns an empty string, so `if not video_title` is exactly `None`.) -/
def videoTitle (env : Env) : String :=
  match get_video_title env with
  | some t => t
  | none => "yt_video_" ++ env.now

/-- `format_time_for_filename` (lines 52-54): replace colons by dashes. -/
def format_time_for_filename (t : String) : String :=
  String.mk (t.data.map (fun c => if c = ':' then '-' else c))

/-- Name of the intermediate full-download file (line 124). -/
def fullName (title : String) : String := title ++ "_full.mp4"

/-- Name of the clip artifact (line 125). -/
def clipName (title start stop : String) : String :=
  title ++ "_clip_" ++ format_time_for_filename start ++ "_to_" ++
    format_time_for_filename stop ++ ".mp4"

/-- Result of the player-client fallback loop (lines 143-209). -/
inductive DlStep
  | cancelledPre
  | cancelledPost
  | success
  | exhausted
deriving DecidableEq

/-- The player-client fallback loop (lines 143-209): `k` is the index of the
next client, the fuel is the number of clients left.  Before each attempt
the cancellation predicate is polled (line 145); after each attempt it is
polled again (line 187) and, crucially, a cancelled return at that point
performs no file cleanup; otherwise an attempt succeeds iff the process
exited 0 and the output file exists (line 198), and a failed attempt's
partial output is deleted (lines 205-209) before the next client. -/
def runClients (env : Env) : Nat → Nat → St → DlStep × St
  | 0, _, st => (.exhausted, st)
  | n + 1, k, st =>
    if env.cancel st.polls then
      (.cancelledPre, { st with polls := st.polls + 1 })
    else if env.cancel (st.polls + 1) then
      (.cancelledPost, { st with
        polls := st.polls + 2
        procs := st.procs ++ [Proc.dlNamed k]
        fullExists := (env.runNamed k).2 })
    else if (env.runNamed k).1 = 0 ∧ (env.runNamed k).2 = true then
      (.success, { st with
        polls := st.polls + 2
        procs := st.procs ++ [Proc.dlNamed k]
        fullExists := (env.runNamed k).2 })
    else
      runClients env n (k + 1) { st with
        polls := st.polls + 2
        procs := st.procs ++ [Proc.dlNamed k]
        fullExists := false }

/-- The ffmpeg trim step (lines 256-290): run the transcoder, poll the
cancellation predicate once afterwards (line 271) — on cancellation the
intermediate file is deleted but the clip output is not — otherwise
success (exit 0 and clip present) or failure both delete the intermediate
file, and only success reports the artifact. -/
def trimPhase (env : Env) (start stop : String) (st : St) : Outcome × St :=
  if env.cancel st.polls then
    (.cancelledTrim, { st with
      polls := st.polls + 1
      procs := st.procs ++ [Proc.transcode]
      clipExists := env.runTranscode.2
      fullExists := false })
  else if env.runTranscode.1 = 0 ∧ env.runTranscode.2 = true then
    (.success, { st with
      polls := st.polls + 1
      procs := st.procs ++ [Proc.transcode]
      clipExists := env.runTranscode.2
      fullExists := false
      artifact := some (clipName (videoTitle env) start stop) })
  else
    (.failedTrim, { st with
      polls := st.polls + 1
      procs := st.procs ++ [Proc.transcode]
      clipExists := env.runTranscode.2
      fullExists := false })

/-- Initial state: the title fetch (line 115) has already started one
external process, before the first cancellation poll. -/
def st0 : St :=
  { polls := 0, procs := [Proc.titleFetch], fullExists := false,
    clipExists := false, artifact := none }

/-- `download_and_clip` (lines 107-290): three named player clients in
order, then — without a preceding cancellation poll — the generic-extractor
fallback (lines 212-254), then the trim step. -/
def download_and_clip (env : Env) (start stop : String) : Outcome × St :=
  match runClients env 3 0 st0 with
  | (.cancelledPre, st) => (.cancelledPre, st)
  | (.cancelledPost, st) => (.cancelledPost, st)
  | (.success, st) => trimPhase env start stop st
  | (.exhausted, st) =>
      if env.cancel st.polls then
        (.cancelledPost, { st with
          polls := st.polls + 1
          procs := st.procs ++ [Proc.dlGeneric]
          fullExists := env.runGeneric.2 })
      else if env.runGeneric.1 = 0 ∧ env.runGeneric.2 = true then
        trimPhase env start stop { st with
          polls := st.polls + 1
          procs := st.procs ++ [Proc.dlGeneric]
          fullExists := env.runGeneric.2 }
      else
        (.failedDownload, { st with
          polls := st.polls + 1
          procs := st.procs ++ [Proc.dlGeneric]
          fullExists := false })

/-- An attempt counts as successful iff the downloader exited 0 and the
expected output file exists (line 198). -/
def attemptOk (env : Env) (k : Nat) : Prop :=
  (env.runNamed k).1 = 0 ∧ (env.runNamed k).2 = true

/-- The success criterion of the generic fallback attempt (line 243). -/
def genericOk (env : Env) : Prop :=
  env.runGeneric.1 = 0 ∧ env.runGeneric.2 = true

instance (env : Env) (k : Nat) : Decidable (attemptOk env k) :=
  inferInstanceAs (Decidable ((env.runNamed k).1 = 0 ∧ (env.runNamed k).2 = true))

instance (env : Env) : Decidable (genericOk env) :=
  inferInstanceAs (Decidable (env.runGeneric.1 = 0 ∧ env.runGeneric.2 = true))

/-! Step lemmas for the player-client loop. -/

theorem runClients_step_cancelPre (env : Env) (n k : Nat) (st : St)
    (hc : env.cancel st.polls = true) :
    runClients env (n + 1) k st = (.cancelledPre, { st with polls := st.polls + 1 }) := by
  unfold runClients
  rw [if_pos hc]

theorem runClients_step_cancelPost (env : Env) (n k : Nat) (st : St)
    (hc : env.cancel st.polls = false) (hc2 : env.cancel (st.polls + 1) = true) :
    runClients env (n + 1) k st =
      (.cancelledPost, { st with
        polls := st.polls + 2
        procs := st.procs ++ [Proc.dlNamed k]
        fullExists := (env.runNamed k).2 }) := by
  unfold runClients
  rw [if_neg (by simp [hc]), if_pos hc2]

theorem runClients_step_succ (env : Env) (n k : Nat) (st : St)
    (hc : env.cancel st.polls = false) (hc2 : env.cancel (st.polls + 1) = false)
    (hok : attemptOk env k) :
    runClients env (n + 1) k st =
      (.success, { st with
        polls := st.polls + 2
        procs := st.procs ++ [Proc.dlNamed k]
        fullExists := (env.runNamed k).2 }) := by
  conv_lhs => unfold runClients
  rw [if_neg (by simp [hc]), if_neg (by simp [hc2]),
    if_pos (show (env.runNamed k).1 = 0 ∧ (env.runNamed k).2 = true from hok)]

theorem runClients_step_fail (env : Env) (n k : Nat) (st : St)
    (hc : env.cancel st.polls = false) (hc2 : env.cancel (st.polls + 1) = false)
    (hnok : ¬ attemptOk env k) :
    runClients env (n + 1) k st =
      runClients env n (k + 1) { st with
        polls := st.polls + 2
        procs := st.procs ++ [Proc.dlNamed k]
        fullExists := false } := by
  conv_lhs => unfold runClients
  rw [if_neg (by simp [hc]), if_neg (by simp [hc2]),
    if_neg (show ¬((env.runNamed k).1 = 0 ∧ (env.runNamed k).2 = true) from hnok)]

/-- Invariant of the loop: started with no intermediate file on disk, the
file is absent again on the pre-attempt-cancellation and exhaustion exits
and present on the success exit; only the post-attempt cancellation exit is
unconstrained. -/
theorem runClients_fullExists (env : Env) : ∀ (n k : Nat) (st : St),
    st.fullExists = false →
    ((runClients env n k st).1 = DlStep.cancelledPre →
      (runClients env n k st).2.fullExists = false) ∧
    ((runClients env n k st).1 = DlStep.exhausted →
      (runClients env n k st).2.fullExists = false) ∧
    ((runClients env n k st).1 = DlStep.success →
      (runClients env n k st).2.fullExists = true) := by
  intro n
  induction n with
  | zero =>
    intro k st hf
    unfold runClients
    refine ⟨fun hx => absurd hx (by simp), fun _ => hf, fun hx => absurd hx (by simp)⟩
  | succ n ih =>
    intro k st hf
    unfold runClients
    by_cases hc : env.cancel st.polls = true
    · rw [if_pos hc]
      refine ⟨fun _ => hf, fun hx => absurd hx (by simp), fun hx => absurd hx (by simp)⟩
    · rw [if_neg hc]
      by_cases hc2 : env.cancel (st.polls + 1) = true
      · rw [if_pos hc2]
        refine ⟨fun hx => absurd hx (by simp), fun hx => absurd hx (by simp),
          fun hx => absurd hx (by simp)⟩
      · rw [if_neg hc2]
        by_cases hok : (env.runNamed k).1 = 0 ∧ (env.runNamed k).2 = true
        · rw [if_pos hok]
          refine ⟨fun hx => absurd hx (by simp), fun hx => absurd hx (by simp),
            fun _ => hok.2⟩
        · rw [if_neg hok]
          exact ih (k + 1) _ rfl

/-- The trim phase deletes the intermediate file on all three of its exits. -/
theorem trimPhase_fullExists (env : Env) (start stop : String) (st : St) :
    (trimPhase env start stop st).2.fullExists = false := by
  unfold trimPhase
  split
  · rfl
  · split
    · rfl
    · rfl

theorem trimPhase_snd_fullExists (env : Env) (start stop : String) (st : St)
    {o : Outcome} {st' : St} (h : trimPhase env start stop st = (o, st')) :
    st'.fullExists = false := by
  have hf := trimPhase_fullExists env start stop st
  rw [h] at hf
  exact hf

/-- C1 amended: the intermediate full-download file is deleted on every exit
path of the run — success, download failure, trim failure, cancellation
before an attempt, and cancellation during the trim step — except when
cancellation is observed right after a download attempt, in which case the
file that attempt produced is left on disk. -/
theorem claim_intermediate_cleanup (env : Env) (start stop : String)
    (o : Outcome) (st : St) (hrun : download_and_clip env start stop = (o, st))
    (ho : o ≠ Outcome.cancelledPost) : st.fullExists = false := by
  unfold download_and_clip at hrun
  split at hrun
  next stM heq =>
    injection hrun with h1 h2
    subst h2
    have hfacts := runClients_fullExists env 3 0 st0 rfl
    rw [heq] at hfacts
    exact hfacts.1 rfl
  next stM heq =>
    injection hrun with h1 h2
    exact absurd h1.symm ho
  next stM heq =>
    exact trimPhase_snd_fullExists env start stop stM hrun
  next stM heq =>
    split at hrun
    · injection hrun with h1 h2
      exact absurd h1.symm ho
    · split at hrun
      · exact trimPhase_snd_fullExists env start stop _ hrun
      · injection hrun with h1 h2
        subst h2
        rfl

/-- A run in which the first download attempt produces the full file and
cancellation is observed at the poll right after that attempt. -/
def envCancelAfter : Env :=
  { titleCode := 1, titleOut := "", now := "", cancel := fun n => decide (1 ≤ n),
    runNamed := fun _ => (0, true), runGeneric := (1, false), runTranscode := (1, false) }

/-- C1 counterexample: with cancellation observed right after the first
download attempt, the run ends cancelled but the intermediate full-download
file is still on disk. -/
theorem intermediate_file_persists :
    (download_and_clip envCancelAfter "00:00:10" "00:01:00").1 = Outcome.cancelledPost ∧
    (download_and_clip envCancelAfter "00:00:10" "00:01:00").2.fullExists = true := by
  decide

/-- A run with no cancellation in which every download attempt fails. -/
def envAllFail : Env :=
  { titleCode := 1, titleOut := "", now := "", cancel := fun _ => false,
    runNamed := fun _ => (1, false), runGeneric := (1, false), runTranscode := (1, false) }

/-- Witness for C1's amended theorem on a concrete failing run. -/
theorem claim_intermediate_cleanup_witness :
    (download_and_clip envAllFail "00:00:10" "00:01:00").1 ≠ Outcome.cancelledPost ∧
    (download_and_clip envAllFail "00:00:10" "00:01:00").2.fullExists = false :=
  ⟨by decide, claim_intermediate_cleanup envAllFail "00:00:10" "00:01:00" _ _ rfl (by decide)⟩

/-- C2 amended: when the cancellation predicate is found true at the poll
after the transcoder ran, the trim step reports Cancelled and deletes the
intermediate source file — but the clip output is left exactly as the
transcoder left it, so a partially written clip file may remain. -/
theorem claim_trim_cancel (env : Env) (start stop : String) (st : St)
    (hc : env.cancel st.polls = true) :
    trimPhase env start stop st =
      (Outcome.cancelledTrim, { st with
        polls := st.polls + 1
        procs := st.procs ++ [Proc.transcode]
        clipExists := env.runTranscode.2
        fullExists := false }) := by
  unfold trimPhase
  rw [if_pos hc]

/-- A run whose download succeeds at once, whose transcoder leaves a clip
file behind, and which is cancelled at the post-trim poll. -/
def envTrimCancel : Env :=
  { titleCode := 1, titleOut := "", now := "", cancel := fun n => decide (2 ≤ n),
    runNamed := fun _ => (0, true), runGeneric := (1, false), runTranscode := (137, true) }

/-- C2 counterexample: a run cancelled during the trim step can end with the
clip artifact file still existing (partially written), although the
intermediate file is deleted and the outcome is Cancelled. -/
theorem trim_cancel_leaves_clip :
    (download_and_clip envTrimCancel "00:00:10" "00:01:00").1 = Outcome.cancelledTrim ∧
    (download_and_clip envTrimCancel "00:00:10" "00:01:00").2.clipExists = true ∧
    (download_and_clip envTrimCancel "00:00:10" "00:01:00").2.fullExists = false := by
  decide

/-- Witness for C2's amended theorem at a concrete state. -/
theorem claim_trim_cancel_witness :
    envTrimCancel.cancel 2 = true ∧
      trimPhase envTrimCancel "00:00:10" "00:01:00"
          { polls := 2, procs := [Proc.titleFetch, Proc.dlNamed 0],
            fullExists := true, clipExists := false, artifact := none } =
        (Outcome.cancelledTrim,
          { polls := 3, procs := [Proc.titleFetch, Proc.dlNamed 0, Proc.transcode],
            fullExists := false, clipExists := true, artifact := none }) := by
  refine ⟨by decide, ?_⟩
  rw [claim_trim_cancel envTrimCancel "00:00:10" "00:01:00"
    { polls := 2, procs := [Proc.titleFetch, Proc.dlNamed 0],
      fullExists := true, clipExists := false, artifact := none } (by decide)]
  decide

/-- C3 amended: if the cancellation predicate is already true at the very
first poll, the run ends Cancelled before any download attempt — but after
the unconditional title-fetch external process has already been invoked. -/
theorem claim_cancel_before_attempts (env : Env) (start stop : String)
    (h0 : env.cancel 0 = true) :
    download_and_clip env start stop =
      (Outcome.cancelledPre,
        { polls := 1, procs := [Proc.titleFetch], fullExists := false,
          clipExists := false, artifact := none }) := by
  unfold download_and_clip
  rw [runClients_step_cancelPre env 2 0 st0 h0]
  rfl

/-- A run whose cancellation predicate is true from the start. -/
def envCancelled : Env :=
  { titleCode := 0, titleOut := "T", now := "", cancel := fun _ => true,
    runNamed := fun _ => (0, true), runGeneric := (0, true), runTranscode := (0, true) }

/-- C3 counterexample: even with cancellation requested before anything
starts, the run has already invoked one external process (the title fetch),
so it does not return "without invoking any external process at all". -/
theorem cancelled_run_still_fetches_title :
    (download_and_clip envCancelled "00:00:10" "00:01:00").1 = Outcome.cancelledPre ∧
    (download_and_clip envCancelled "00:00:10" "00:01:00").2.procs = [Proc.titleFetch] ∧
    (download_and_clip envCancelled "00:00:10" "00:01:00").2.procs ≠ [] := by
  decide

/-- Witness for C3's amended theorem. -/
theorem claim_cancel_before_attempts_witness :
    envCancelled.cancel 0 = true ∧
      download_and_clip envCancelled "00:00:10" "00:01:00" =
        (Outcome.cancelledPre,
          { polls := 1, procs := [Proc.titleFetch], fullExists := false,
            clipExists := false, artifact := none }) :=
  ⟨rfl, claim_cancel_before_attempts envCancelled "00:00:10" "00:01:00" rfl⟩

/-- Inversion of a successful trim: the intermediate file is gone, the clip
exists, and the artifact path is the title/bounds-derived clip name. -/
theorem trimPhase_success_inv (env : Env) (start stop : String) (st : St)
    {st' : St} (h : trimPhase env start stop st = (Outcome.success, st')) :
    st'.fullExists = false ∧ st'.clipExists = true ∧
      st'.artifact = some (clipName (videoTitle env) start stop) := by
  unfold trimPhase at h
  split at h
  · exact absurd (congrArg Prod.fst h) (by simp)
  · split at h
    next hok =>
      injection h with h1 h2
      subst h2
      exact ⟨rfl, hok.2, rfl⟩
    next hok =>
      exact absurd (congrArg Prod.fst h) (by simp)

/-- C4 amended: on a fully successful run the intermediate file is deleted,
the clip artifact exists, and its name is the sanitized title followed by
`_clip_`, the hyphenated bounds and `.mp4` — where sanitization keeps
spaces, so title `"My Video"` yields
`My Video_clip_00-00-10_to_00-01-00.mp4` (with a space, not an
underscore). -/
theorem claim_success_run (env : Env) (start stop : String) (o : Outcome) (st : St)
    (hrun : download_and_clip env start stop = (o, st)) (ho : o = Outcome.success) :
    st.fullExists = false ∧ st.clipExists = true ∧
      st.artifact = some (clipName (videoTitle env) start stop) ∧
      clipName (sanitize_filename "My Video") "00:00:10" "00:01:00" =
        "My Video_clip_00-00-10_to_00-01-00.mp4" := by
  subst ho
  unfold download_and_clip at hrun
  split at hrun
  next stM heq => exact absurd (congrArg Prod.fst hrun) (by simp)
  next stM heq => exact absurd (congrArg Prod.fst hrun) (by simp)
  next stM heq =>
    obtain ⟨hf, hc, ha⟩ := trimPhase_success_inv env start stop stM hrun
    exact ⟨hf, hc, ha, by decide⟩
  next stM heq =>
    split at hrun
    · exact absurd (congrArg Prod.fst hrun) (by simp)
    · split at hrun
      · obtain ⟨hf, hc, ha⟩ := trimPhase_success_inv env start stop _ hrun
        exact ⟨hf, hc, ha, by decide⟩
      · exact absurd (congrArg Prod.fst hrun) (by simp)

/-- A fully successful run whose video title is "My Video". -/
def envMyVideo : Env :=
  { titleCode := 0, titleOut := "My Video", now := "", cancel := fun _ => false,
    runNamed := fun _ => (0, true), runGeneric := (1, false), runTranscode := (0, true) }

/-- C4 counterexample: the successful run for title "My Video" names its
clip `My Video_clip_00-00-10_to_00-01-00.mp4` — sanitization keeps the
space — not `My_Video_clip_00-00-10_to_00-01-00.mp4` as the claim's example
asserts. -/
theorem clip_name_keeps_space :
    (download_and_clip envMyVideo "00:00:10" "00:01:00").1 = Outcome.success ∧
    (download_and_clip envMyVideo "00:00:10" "00:01:00").2.artifact =
      some "My Video_clip_00-00-10_to_00-01-00.mp4" ∧
    (download_and_clip envMyVideo "00:00:10" "00:01:00").2.artifact ≠
      some "My_Video_clip_00-00-10_to_00-01-00.mp4" := by
  decide

/-- Witness for C4's amended theorem on the "My Video" run. -/
theorem claim_success_run_witness :
    (download_and_clip envMyVideo "00:00:10" "00:01:00").1 = Outcome.success ∧
      (download_and_clip envMyVideo "00:00:10" "00:01:00").2.fullExists = false ∧
      (download_and_clip envMyVideo "00:00:10" "00:01:00").2.clipExists = true :=
  ⟨by decide,
    (claim_success_run envMyVideo "00:00:10" "00:01:00" _ _ rfl (by decide)).1,
    (claim_success_run envMyVideo "00:00:10" "00:01:00" _ _ rfl (by decide)).2.1⟩

/-- Full-run behaviour when every named client was exhausted and the generic
fallback fails: the run reports failure with the generic attempt recorded
exactly once and no intermediate file left. -/
theorem dl_of_exhausted (env : Env) (start stop : String) {stE : St}
    (h : runClients env 3 0 st0 = (DlStep.exhausted, stE))
    (hc : env.cancel stE.polls = false)
    (hng : ¬ (env.runGeneric.1 = 0 ∧ env.runGeneric.2 = true)) :
    download_and_clip env start stop =
      (Outcome.failedDownload, { stE with
        polls := stE.polls + 1
        procs := stE.procs ++ [Proc.dlGeneric]
        fullExists := false }) := by
  unfold download_and_clip
  rw [h]
  simp [hc, hng]

/-- C5: the Retrieval Strategy Runner, in a run with no cancellation:
an attempt succeeds iff the downloader exited 0 and the output file exists;
a failed attempt's partial output is deleted before the next client is
tried (first conjunct); the clients are tried in declared order and the
runner stops at the first success, having started exactly the attempts up
to it (second conjunct); and when all three named clients fail it runs the
generic fallback exactly once and, if that also fails, reports failure
(third conjunct). -/
theorem claim_strategy_runner (env : Env) (start stop : String)
    (hnc : ∀ n, env.cancel n = false) :
    (∀ (n k : Nat) (st : St), ¬ attemptOk env k →
      runClients env (n + 1) k st =
        runClients env n (k + 1) { st with
          polls := st.polls + 2
          procs := st.procs ++ [Proc.dlNamed k]
          fullExists := false }) ∧
    (∀ k, k < 3 → (∀ j, j < k → ¬ attemptOk env j) → attemptOk env k →
      runClients env 3 0 st0 =
        (DlStep.success,
          { polls := 2 * k + 2,
            procs := Proc.titleFetch :: (List.range (k + 1)).map Proc.dlNamed,
            fullExists := true, clipExists := false, artifact := none })) ∧
    ((∀ j, j < 3 → ¬ attemptOk env j) →
      runClients env 3 0 st0 =
        (DlStep.exhausted,
          { polls := 6,
            procs := [Proc.titleFetch, Proc.dlNamed 0, Proc.dlNamed 1, Proc.dlNamed 2],
            fullExists := false, clipExists := false, artifact := none }) ∧
      (¬ genericOk env →
        download_and_clip env start stop =
          (Outcome.failedDownload,
            { polls := 7,
              procs := [Proc.titleFetch, Proc.dlNamed 0, Proc.dlNamed 1,
                Proc.dlNamed 2, Proc.dlGeneric],
              fullExists := false, clipExists := false, artifact := none }))) := by
  refine ⟨?_, ?_, ?_⟩
  · intro n k st hnok
    exact runClients_step_fail env n k st (hnc _) (hnc _) hnok
  · intro k hk hprev hok
    interval_cases k
    · exact (runClients_step_succ env 2 0 st0 (hnc 0) (hnc 1) hok).trans
        (by rw [hok.2]; rfl)
    · exact (runClients_step_fail env 2 0 st0 (hnc 0) (hnc 1)
          (hprev 0 (by omega))).trans
        ((runClients_step_succ env 1 1 _ (hnc 2) (hnc 3) hok).trans
          (by rw [hok.2]; rfl))
    · exact (runClients_step_fail env 2 0 st0 (hnc 0) (hnc 1)
          (hprev 0 (by omega))).trans
        ((runClients_step_fail env 1 1 _ (hnc 2) (hnc 3)
            (hprev 1 (by omega))).trans
          ((runClients_step_succ env 0 2 _ (hnc 4) (hnc 5) hok).trans
            (by rw [hok.2]; rfl)))
  · intro hall
    have hexh : runClients env 3 0 st0 =
        (DlStep.exhausted,
          { polls := 6,
            procs := [Proc.titleFetch, Proc.dlNamed 0, Proc.dlNamed 1, Proc.dlNamed 2],
            fullExists := false, clipExists := false, artifact := none }) :=
      (runClients_step_fail env 2 0 st0 (hnc 0) (hnc 1) (hall 0 (by omega))).trans
        ((runClients_step_fail env 1 1 _ (hnc 2) (hnc 3) (hall 1 (by omega))).trans
          ((runClients_step_fail env 0 2 _ (hnc 4) (hnc 5) (hall 2 (by omega))).trans
            rfl))
    refine ⟨hexh, fun hng => ?_⟩
    exact dl_of_exhausted env start stop hexh (hnc 6) hng

/-- A run with no cancellation whose first client fails and second client
succeeds. -/
def envSecond : Env :=
  { titleCode := 1, titleOut := "", now := "", cancel := fun _ => false,
    runNamed := fun k => if k = 0 then (1, false) else (0, true),
    runGeneric := (1, false), runTranscode := (0, true) }

/-- Witness for C5: with client 0 failing and client 1 succeeding, the
runner tries exactly clients 0 and 1 in order and stops with success. -/
theorem claim_strategy_runner_witness :
    runClients envSecond 3 0 st0 =
      (DlStep.success,
        { polls := 2 * 1 + 2,
          procs := Proc.titleFetch :: (List.range (1 + 1)).map Proc.dlNamed,
          fullExists := true, clipExists := false, artifact := none }) :=
  (claim_strategy_runner envSecond "00:00:10" "00:01:00" (fun _ => rfl)).2.1 1
    (by omega)
    (fun j hj => by
      have hj0 : j = 0 := by omega
      subst hj0
      decide)
    (by decide)

/-- C10: `run_command` never propagates an exception to its caller — it
always returns a pair: exit code 1 with the exception text when the spawn,
the callback, or the wait raises, and the process's exit code with the
concatenated stdout and stderr otherwise. -/
theorem claim_run_command_total (w : CmdWorld) :
    (∀ m, w.spawn = .error m → run_command w = (1, m)) ∧
    (∀ m, w.spawn = .ok () → w.callback = .error m → run_command w = (1, m)) ∧
    (∀ m, w.spawn = .ok () → w.callback = .ok () → w.comm = .error m →
      run_command w = (1, m)) ∧
    (∀ (code : Int) (out err : String), w.spawn = .ok () → w.callback = .ok () →
      w.comm = .ok (code, out, err) → run_command w = (code, out ++ err)) := by
  refine ⟨?_, ?_, ?_, ?_⟩
  · intro m hs
    unfold run_command run_command_body
    rw [hs]
    rfl
  · intro m hs hcb
    unfold run_command run_command_body
    rw [hs, hcb]
    rfl
  · intro m hs hcb hcm
    unfold run_command run_command_body
    rw [hs, hcb, hcm]
    rfl
  · intro code out err hs hcb hcm
    unfold run_command run_command_body
    rw [hs, hcb, hcm]
    rfl

/-- Witness for C10 on a concrete successful command. -/
theorem claim_run_command_total_witness :
    run_command ⟨Except.ok (), Except.ok (), Except.ok (7, "out", "err")⟩ =
      (7, "out" ++ "err") :=
  (claim_run_command_total _).2.2.2 7 "out" "err" rfl rfl rfl

end YTD
